import Mathlib

/-!
Shallow embedding of the `repo_daily_reload` repository (Python sources
`sync_repos.py`, `cleanup_tool.py`, `error_handler.py`) and verification of
its specification claims.

The repository orchestrates two remote services: an Azure DevOps host
(list projects, resolve a repository URL) and a Sonatype IQ server
(list/create/scan/delete applications).  The embedding models the outcome
of every remote call through an explicit environment record: each call
either returns a value or raises (modelled with `Except Unit`), exactly
the outcomes the Python call sites distinguish.  Call attempts are made
observable through event traces so that claims of the form "a creation
call is attempted" are statable.
-/

/-- Python truthiness of an optional string value (`if not x` on a value
that is either `None` or a `str`): falsy iff `None` or the empty string. -/
def optStrFalsy : Option String → Bool
  | none => true
  | some s => s.isEmpty

/-- Python's substring operator `needle in hay` on strings: `needle` occurs
contiguously inside `hay` (exact, case-sensitive comparison of the
character sequences). -/
def strContains (hay needle : String) : Bool :=
  decide (needle.data <:+: hay.data)

/-- A project record as normalized by `AzureDevOps.get_projects`
(`sync_repos.py`): id, name, and an optional free-text description. -/
structure Project where
  id : String
  name : String
  description : Option String
deriving Repr, DecidableEq

/-- An organization record as read from the organization list file
(`config/org-azure.json`): the raw record may lack either field, which
`o.get(...)` surfaces as an absent value. -/
structure OrgRec where
  id : Option String
  chineseName : Option String
deriving Repr, DecidableEq

/-- The validity filter of `load_organizations` (`sync_repos.py` line 68 and
`cleanup_tool.py` line 52): `o.get("id") and o.get("chineseName")`, i.e.
both fields present and truthy (non-empty). -/
def validOrg (o : OrgRec) : Bool :=
  !optStrFalsy o.id && !optStrFalsy o.chineseName

/-- The loader `load_organizations` (`sync_repos.py` lines 60-77): filter
to valid records; raise `ValueError` when none survive.  The `Except`
error carries the exception message. -/
def load_organizations (orgs : List OrgRec) : Except String (List OrgRec) :=
  let valid_orgs := orgs.filter validOrg
  if valid_orgs.isEmpty then
    Except.error ("No valid organizations found in configuration")
  else
    Except.ok valid_orgs

/-- The description marker used by `Sync.sync` (`sync_repos.py` line 239):
the literal f-string `f"權責部門：{chinese_name}"`. -/
def marker (chineseName : String) : String :=
  "權責部門：" ++ chineseName

/-- The matched-project filter of `Sync.sync` (`sync_repos.py` lines
236-240): projects whose description (with `None` coerced to `""` by
`or ""`) contains the marker substring. -/
def matchedProjects (projects : List Project) (chineseName : String) :
    List Project :=
  projects.filter
    (fun p => strContains ((p.description).getD ("")) (marker chineseName))

/-- The name → id dictionary built by `IQ.get_applications`
(`sync_repos.py` lines 100-109) from the listed applications, together
with Python's `dict.get`: the comprehension lets a later binding of the
same name overwrite an earlier one, so lookup returns the last binding. -/
def pyDictGet (pairs : List (String × String)) (k : String) : Option String :=
  ((pairs.filter (fun pr => pr.1 == k)).getLast?).map (fun pr => pr.2)

/-- The per-organization result of `Sync.sync`: the three counters it
returns (`sync_repos.py` line 296). -/
structure SyncResult where
  created : Nat
  scanned : Nat
  errors : Nat
deriving Repr, DecidableEq

/-- Field-wise addition of sync counters, as performed by the run loop of
`sync_repos_main` (`for key in total: total[key] += result[key]`). -/
def addSync (a b : SyncResult) : SyncResult :=
  ⟨a.created + b.created, a.scanned + b.scanned, a.errors + b.errors⟩

/-- Observable remote mutation attempts made while processing one project
in `Sync.sync`: a call to `iq.create_application` (with the name and
clone URL passed) or a call to `iq.scan_application` (with the
application id passed). -/
inductive SyncEv
  | createCall (name url : String)
  | scanCall (appId : String)
deriving Repr, DecidableEq

/-- Environment fixing the outcome of every remote call observed by
`Sync.sync`.  `repoUrl` is `azure_devops.get_repo_url` (it catches its own
exceptions and returns `None` on failure).  `createApp` and `scanApp` are
the outcomes of `iq.create_application` / `iq.scan_application` as seen
inside the per-project `try` block: a returned value, or a raised
exception (`Except.error`) absorbed by the per-project handler. -/
structure SyncEnv where
  projects : List Project
  apps : List (String × String)
  repoUrl : String → Option String
  createApp : String → String → Except Unit (Option String)
  scanApp : String → Except Unit Bool

/-- The scan step at the tail of the per-project block (`sync_repos.py`
lines 281-291): on `True` increment `scanned`; on `False` increment
`errors`; a raised exception reaches the per-project handler, which also
increments `errors`.  `base` carries the counters already incremented
earlier in the block (the `created` increment). -/
def scanStep (env : SyncEnv) (appId : String) (base : SyncResult)
    (tr : List SyncEv) : SyncResult × List SyncEv :=
  match env.scanApp appId with
  | Except.ok true =>
      (⟨base.created, base.scanned + 1, base.errors⟩, tr ++ [SyncEv.scanCall appId])
  | Except.ok false =>
      (⟨base.created, base.scanned, base.errors + 1⟩, tr ++ [SyncEv.scanCall appId])
  | Except.error _ =>
      (⟨base.created, base.scanned, base.errors + 1⟩, tr ++ [SyncEv.scanCall appId])

/-- The creation branch of the per-project block (`sync_repos.py` lines
266-276): call `iq.create_application`; a falsy result (`None`, or an
empty id) increments `errors` and skips the project; a truthy id
increments `created` and proceeds to the scan step; a raised exception
reaches the per-project handler (one `errors` increment). -/
def createThenScan (env : SyncEnv) (name url : String) :
    SyncResult × List SyncEv :=
  match env.createApp name url with
  | Except.error _ => (⟨0, 0, 1⟩, [SyncEv.createCall name url])
  | Except.ok none => (⟨0, 0, 1⟩, [SyncEv.createCall name url])
  | Except.ok (some newId) =>
      if newId.isEmpty then (⟨0, 0, 1⟩, [SyncEv.createCall name url])
      else scanStep env newId ⟨1, 0, 0⟩ [SyncEv.createCall name url]

/-- The body of the per-project loop of `Sync.sync` (`sync_repos.py` lines
249-294): resolve the clone URL (falsy → one `errors` increment, skip);
look the project's name up in the applications dictionary; a falsy id
(absent name, or an empty stored id) routes through the creation branch,
a truthy id goes straight to the scan step. -/
def processProject (env : SyncEnv) (apps : List (String × String))
    (p : Project) : SyncResult × List SyncEv :=
  match env.repoUrl p.id with
  | none => (⟨0, 0, 1⟩, [])
  | some url =>
      if url.isEmpty then (⟨0, 0, 1⟩, [])
      else
        match pyDictGet apps p.name with
        | some appId =>
            if appId.isEmpty then createThenScan env p.name url
            else scanStep env appId ⟨0, 0, 0⟩ []
        | none => createThenScan env p.name url

/-- Per-organization sync: `Sync.sync` (`sync_repos.py` lines 230-296)
filters the host-wide project list by the description marker; an empty
match returns zero counters at once; otherwise the per-project block is
folded over the matched projects, accumulating the three counters. -/
def Sync.sync (env : SyncEnv) (chineseName : String) : SyncResult :=
  let matched := matchedProjects env.projects chineseName
  if matched.isEmpty then ⟨0, 0, 0⟩
  else
    matched.foldl
      (fun acc p => addSync acc (processProject env env.apps p).1) ⟨0, 0, 0⟩

/-- An application record as normalized by the cleanup tool's
`IQ.get_applications` (`cleanup_tool.py` lines 87-99). -/
structure AppRec where
  name : String
  id : String
deriving Repr, DecidableEq

/-- The per-organization result of `Cleanup.cleanup`
(`cleanup_tool.py` line 148). -/
structure CleanupResult where
  deleted : Nat
  errors : Nat
deriving Repr, DecidableEq

/-- Field-wise addition of cleanup counters, as performed by the run loop
of `cleanup_main`. -/
def addCleanup (a b : CleanupResult) : CleanupResult :=
  ⟨a.deleted + b.deleted, a.errors + b.errors⟩

/-- Environment fixing the outcome of every remote call observed by
`Cleanup.cleanup`: the application listing, and for each application id
the outcome of `iq.delete_application` — a Boolean return, or a raised
exception absorbed by the per-application handler. -/
structure CleanupEnv where
  apps : List AppRec
  deleteApp : String → Except Unit Bool

/-- Per-organization cleanup: `Cleanup.cleanup` (`cleanup_tool.py` lines
123-148).  An empty listing returns zero counters; otherwise every
application is attempted: a `True` return increments `deleted`, a `False`
return increments `errors`, and a raised exception is caught by the
per-application handler and increments `errors`; the loop always
continues to the next application. -/
def Cleanup.cleanup (env : CleanupEnv) : CleanupResult :=
  if env.apps.isEmpty then ⟨0, 0⟩
  else
    env.apps.foldl
      (fun c app =>
        match env.deleteApp app.id with
        | Except.ok true => ⟨c.deleted + 1, c.errors⟩
        | Except.ok false => ⟨c.deleted, c.errors + 1⟩
        | Except.error _ => ⟨c.deleted, c.errors + 1⟩)
      ⟨0, 0⟩

/-- A deletion attempt that fails for application `a`: `delete_application`
returns `False` or raises. -/
def deleteFails (env : CleanupEnv) (a : AppRec) : Bool :=
  match env.deleteApp a.id with
  | Except.ok true => false
  | Except.ok false => true
  | Except.error _ => true

/-- The organization run loop of `sync_repos_main` (`sync_repos.py` lines
321-334): each per-organization call either returns a result (field-wise
added into the total) or raises (caught, one `errors` increment). -/
def runSyncLoop (results : List (Except Unit SyncResult)) : SyncResult :=
  results.foldl
    (fun t r =>
      match r with
      | Except.ok res => addSync t res
      | Except.error _ => ⟨t.created, t.scanned, t.errors + 1⟩)
    ⟨0, 0, 0⟩

/-- The organization run loop of `cleanup_main` (`cleanup_tool.py` lines
173-188), with the same shape as the sync run loop. -/
def runCleanupLoop (results : List (Except Unit CleanupResult)) :
    CleanupResult :=
  results.foldl
    (fun t r =>
      match r with
      | Except.ok res => addCleanup t res
      | Except.error _ => ⟨t.deleted, t.errors + 1⟩)
    ⟨0, 0⟩

/-- Field-wise sum of a list of sync results — the specification's
description of aggregation, stated independently of the loop. -/
def sumSync (rs : List SyncResult) : SyncResult :=
  ⟨(rs.map SyncResult.created).sum, (rs.map SyncResult.scanned).sum,
   (rs.map SyncResult.errors).sum⟩

/-- Field-wise sum of a list of cleanup results. -/
def sumCleanup (rs : List CleanupResult) : CleanupResult :=
  ⟨(rs.map CleanupResult.deleted).sum, (rs.map CleanupResult.errors).sum⟩

/-- The main body `sync_repos_main` (`sync_repos.py` lines 299-334), from
the point the organization list is in hand: initialization runs
`load_organizations`; on its exception the function logs and returns
(first component `none`) and no per-organization sync is ever invoked;
otherwise the run loop is executed over the valid organizations.  The
second component records, in order, the organizations on which
`sync_tool.sync` was invoked — the only gateway to any remote call of the
run. -/
def sync_repos_main (orgs : List OrgRec)
    (syncFn : OrgRec → Except Unit SyncResult) :
    Option SyncResult × List OrgRec :=
  match load_organizations orgs with
  | Except.error _ => (none, [])
  | Except.ok valid => (some (runSyncLoop (valid.map syncFn)), valid)

/-- Events observable from `IQ.create_application` (`sync_repos.py` lines
111-139): the application-creation POST, the source-control binding POST
for a given application id, and (never emitted by the code, stated for
the no-compensation claim) a DELETE of an application. -/
inductive IQEv
  | applicationPost
  | sourceControlPost (appId : String)
  | deleteCall (appId : String)
deriving Repr, DecidableEq

/-- Environment fixing the outcomes of the two POSTs inside
`IQ.create_application`: the creation POST yields the new application id
or raises; the source-control POST (keyed by the id it is given) succeeds
or raises. -/
structure CreateEnv where
  postApplication : Except Unit String
  postSourceControl : String → Except Unit Unit

/-- Application creation: `IQ.create_application` (`sync_repos.py` lines
111-139) POSTs the application; on success POSTs its source-control
binding; it returns the id only when both succeed.  Any exception is
caught by the enclosing handler and turned into `None`; no further call —
in particular no compensating delete — is made after a failure. -/
def IQ.create_application (env : CreateEnv) : Option String × List IQEv :=
  match env.postApplication with
  | Except.error _ => (none, [IQEv.applicationPost])
  | Except.ok appId =>
      match env.postSourceControl appId with
      | Except.error _ =>
          (none, [IQEv.applicationPost, IQEv.sourceControlPost appId])
      | Except.ok _ =>
          (some appId, [IQEv.applicationPost, IQEv.sourceControlPost appId])

/-- A project whose description carries the marker for the display name
used in the C1 witness. -/
def projAlpha : Project := ⟨"p1", "P1", some ("權責部門：Alpha")⟩

/-- A project with no description, for the C1 witness. -/
def projNil : Project := ⟨"p2", "P2", none⟩

/-- A creation environment in which both POSTs succeed, for the C7
witness. -/
def createEnvOk : CreateEnv :=
  ⟨Except.ok ("app-1"), fun _ => Except.ok ()⟩

/-- A matched project with no same-named application, for the C2
witness. -/
def projCreate : Project := ⟨"pid-1", "Repo1", some ("權責部門：甲部")⟩

/-- Environment for the C2 witness: empty application listing, resolvable
clone URL, successful creation and scan. -/
def syncEnvCreate : SyncEnv :=
  ⟨[projCreate], [], fun _ => some ("https://host/r1"),
   fun _ _ => Except.ok (some ("app-9")), fun _ => Except.ok true⟩

/-- A matched project whose name maps to an existing application id, for
the C3 witness. -/
def projScan : Project := ⟨"pid-2", "Repo2", some ("權責部門：乙部")⟩

/-- Environment for the C3 witness: the listing maps the project's name
to a non-empty application id and the scan succeeds. -/
def syncEnvScan : SyncEnv :=
  ⟨[projScan], [("Repo2", "app-7")], fun _ => some ("https://host/r2"),
   fun _ _ => Except.ok (some ("unused")), fun _ => Except.ok true⟩

/-- A matched project whose name the listing maps to a falsy (empty) id,
for C10. -/
def projFalsy : Project := ⟨"pidX", "RepoX", some ("權責部門：丙部")⟩

/-- Environment for C10: the application listing contains the project's
name bound to the empty id. -/
def syncEnvFalsy : SyncEnv :=
  ⟨[projFalsy], [("RepoX", "")], fun _ => some ("https://host/rx"),
   fun _ _ => Except.ok (some ("app-3")), fun _ => Except.ok true⟩

/-- A matched project used with an empty application mapping, for the C10
witness. -/
def projEmptyApps : Project := ⟨"pidY", "RepoY", some ("權責部門：丁部")⟩

/-- Environment for the C10 witness: empty application mapping (the shape
`get_applications` returns after a listing failure). -/
def syncEnvEmptyApps : SyncEnv :=
  ⟨[projEmptyApps], [], fun _ => some ("https://host/ry"),
   fun _ _ => Except.error (), fun _ => Except.ok false⟩

/-- An organization record with an empty id, hence invalid, for the C6
witness. -/
def badOrg : OrgRec := ⟨some (""), some ("甲部")⟩

/-- An organization record with both fields non-empty, hence valid, for
the C8 witness. -/
def goodOrg : OrgRec := ⟨some ("42"), some ("戊部")⟩

/-- The empty string is empty — evaluation fact used to reduce the
source's falsy-id test on a concrete value. -/
theorem emptyString_isEmpty : ("" : String).isEmpty = true := rfl

/-- Splitting a list's length by a Boolean predicate: the lengths of the
negative and positive filters add up to the whole. -/
theorem length_filter_not_add {α : Type} (p : α → Bool) (l : List α) :
    (l.filter (fun a => !p a)).length + (l.filter p).length = l.length := by
  induction l with
  | nil => rfl
  | cons a l ih =>
    by_cases h : p a <;> simp [List.filter_cons, h] <;> omega

/-- The cleanup fold counts, for any starting accumulator, exactly the
succeeding deletions into `deleted` and the failing ones into `errors`. -/
theorem cleanup_foldl_counts (env : CleanupEnv) (l : List AppRec)
    (c : CleanupResult) :
    (l.foldl
        (fun c app =>
          match env.deleteApp app.id with
          | Except.ok true => (⟨c.deleted + 1, c.errors⟩ : CleanupResult)
          | Except.ok false => ⟨c.deleted, c.errors + 1⟩
          | Except.error _ => ⟨c.deleted, c.errors + 1⟩)
        c)
      = ⟨c.deleted + (l.filter (fun a => !deleteFails env a)).length,
         c.errors + (l.filter (deleteFails env)).length⟩ := by
  induction l generalizing c with
  | nil => simp
  | cons a l ih =>
    rcases hd : env.deleteApp a.id with e | b
    · simp [List.foldl_cons, hd, ih, List.filter_cons, deleteFails]
      omega
    · cases b <;>
        simp [List.foldl_cons, hd, ih, List.filter_cons, deleteFails] <;>
        omega

/-- The sync run loop over results that all return normally adds the
field-wise sum onto any starting total. -/
theorem runSyncLoop_ok_acc (rs : List SyncResult) :
    ∀ (t : SyncResult),
      ((rs.map Except.ok : List (Except Unit SyncResult)).foldl
        (fun t r =>
          match r with
          | Except.ok res => addSync t res
          | Except.error _ => (⟨t.created, t.scanned, t.errors + 1⟩ : SyncResult))
        t)
      = addSync t (sumSync rs) := by
  induction rs with
  | nil => intro t; simp [sumSync, addSync]
  | cons r rs ih =>
    intro t
    simp only [List.map_cons, List.foldl_cons]
    rw [ih]
    simp [addSync, sumSync]
    omega

/-- The cleanup run loop over results that all return normally adds the
field-wise sum onto any starting total. -/
theorem runCleanupLoop_ok_acc (rs : List CleanupResult) :
    ∀ (t : CleanupResult),
      ((rs.map Except.ok : List (Except Unit CleanupResult)).foldl
        (fun t r =>
          match r with
          | Except.ok res => addCleanup t res
          | Except.error _ => (⟨t.deleted, t.errors + 1⟩ : CleanupResult))
        t)
      = addCleanup t (sumCleanup rs) := by
  induction rs with
  | nil => intro t; simp [sumCleanup, addCleanup]
  | cons r rs ih =>
    intro t
    simp only [List.map_cons, List.foldl_cons]
    rw [ih]
    simp [addCleanup, sumCleanup]
    omega

/-- Every branch of the per-project block contributes exactly one
increment to exactly one of `scanned`/`errors`, and at most one to
`created`. -/
theorem processProject_counts (env : SyncEnv) (apps : List (String × String))
    (p : Project) :
    (processProject env apps p).1.scanned + (processProject env apps p).1.errors
      = 1
    ∧ (processProject env apps p).1.created ≤ 1 := by
  unfold processProject createThenScan scanStep
  rcases hu : env.repoUrl p.id with _ | url
  · simp
  · by_cases he : url.isEmpty
    · simp [he]
    · simp only [he, if_false, Bool.false_eq_true]
      rcases ha : pyDictGet apps p.name with _ | appId
      · rcases hc : env.createApp p.name url with e | oid
        · simp
        · rcases oid with _ | newId
          · simp
          · by_cases hni : newId.isEmpty
            · simp [hni]
            · rcases hs : env.scanApp newId with e | b
              · simp [hni, hs]
              · cases b <;> simp [hni, hs]
      · by_cases hai : appId.isEmpty
        · simp only [hai, if_true]
          rcases hc : env.createApp p.name url with e | oid
          · simp
          · rcases oid with _ | newId
            · simp
            · by_cases hni : newId.isEmpty
              · simp [hni]
              · rcases hs : env.scanApp newId with e | b
                · simp [hni, hs]
                · cases b <;> simp [hni, hs]
        · simp only [hai, if_false, Bool.false_eq_true]
          rcases hs : env.scanApp appId with e | b
          · simp [hs]
          · cases b <;> simp [hs]

/-- The early return of `Sync.sync` on an empty match agrees with the
fold, so the whole function is the fold over the matched projects. -/
theorem sync_eq_foldl (env : SyncEnv) (n : String) :
    Sync.sync env n
      = (matchedProjects env.projects n).foldl
          (fun acc p => addSync acc (processProject env env.apps p).1)
          ⟨0, 0, 0⟩ := by
  unfold Sync.sync
  by_cases h : (matchedProjects env.projects n).isEmpty
  · rw [List.isEmpty_iff.mp h]
    simp
  · simp [h]

/-- Folding field-wise addition of per-project results, each of which
contributes one `scanned`/`errors` increment and at most one `created`
increment, counts the list. -/
theorem foldl_addSync_bound (g : Project → SyncResult)
    (hg : ∀ p, (g p).scanned + (g p).errors = 1 ∧ (g p).created ≤ 1)
    (l : List Project) :
    ∀ (acc : SyncResult),
      ((l.foldl (fun a p => addSync a (g p)) acc).scanned
          + (l.foldl (fun a p => addSync a (g p)) acc).errors
        = acc.scanned + acc.errors + l.length)
      ∧ (l.foldl (fun a p => addSync a (g p)) acc).created
          ≤ acc.created + l.length := by
  induction l with
  | nil => intro acc; simp
  | cons a l ih =>
    intro acc
    rcases hg a with ⟨h1, h2⟩
    have h := ih (addSync acc (g a))
    simp only [List.foldl_cons, List.length_cons]
    constructor
    · rw [h.1]
      simp [addSync]
      omega
    · refine le_trans h.2 ?_
      simp [addSync]
      omega

/-- With a truthy clone URL and a name absent from the applications
dictionary, the per-project block is exactly the creation branch. -/
theorem processProject_eq_createThenScan (env : SyncEnv)
    (apps : List (String × String)) (p : Project) (url : String)
    (hurl : env.repoUrl p.id = some url) (hne : url.isEmpty = false)
    (hnoapp : pyDictGet apps p.name = none) :
    processProject env apps p = createThenScan env p.name url := by
  unfold processProject
  simp [hurl, hne, hnoapp]

/-- With a truthy clone URL and a truthy existing application id, the
per-project block is exactly the scan step on that id. -/
theorem processProject_eq_scanStep (env : SyncEnv)
    (apps : List (String × String)) (p : Project) (url appId : String)
    (hurl : env.repoUrl p.id = some url) (hne : url.isEmpty = false)
    (happ : pyDictGet apps p.name = some appId)
    (hid : appId.isEmpty = false) :
    processProject env apps p = scanStep env appId ⟨0, 0, 0⟩ [] := by
  unfold processProject
  simp [hurl, hne, happ, hid]

/-- The creation branch always records a creation call in its trace,
whatever the outcome of the calls. -/
theorem createThenScan_hasCreate (env : SyncEnv) (nm url : String) :
    SyncEv.createCall nm url ∈ (createThenScan env nm url).2 := by
  unfold createThenScan scanStep
  rcases hc : env.createApp nm url with e | oid
  · simp
  · rcases oid with _ | newId
    · simp
    · by_cases hni : newId.isEmpty
      · simp [hni]
      · rcases hs : env.scanApp newId with e | b
        · simp [hni, hs]
        · cases b <;> simp [hni, hs]

/-- C1: for every project list and display name, `Sync.sync` selects as
matched exactly the projects whose description contains the exact marker
substring `"權責部門：<displayName>"`; the comparison is an exact
(case-sensitive) contiguous-substring match of the character sequences,
and a project with no description matches nothing. -/
theorem C1_matched_selection (ps : List Project) (n : String) (p : Project) :
    (p ∈ matchedProjects ps n ↔
      p ∈ ps ∧ (marker n).data <:+: ((p.description).getD ("")).data)
    ∧ (p.description = none → p ∉ matchedProjects ps n) := by
  constructor
  · simp [matchedProjects, List.mem_filter, strContains]
  · intro h hmem
    rw [matchedProjects, List.mem_filter] at hmem
    rcases hmem with ⟨-, hc⟩
    rw [h] at hc
    simp only [strContains, Option.getD, decide_eq_true_eq] at hc
    have hdata : (marker n).data = [] := List.sublist_nil.mp hc.sublist
    rw [marker, String.data_append] at hdata
    rcases List.append_eq_nil.mp hdata with ⟨h1, -⟩
    exact absurd h1 (by decide)

/-- Witness for C1 on a concrete project list: the marked project is
matched, the description-less one is not. -/
theorem C1_matched_selection_witness :
    projAlpha ∈ matchedProjects [projAlpha, projNil] ("Alpha")
    ∧ projNil ∉ matchedProjects [projAlpha, projNil] ("Alpha") :=
  ⟨(C1_matched_selection [projAlpha, projNil] ("Alpha") projAlpha).1.mpr
      ⟨by decide, by decide⟩,
   (C1_matched_selection [projAlpha, projNil] ("Alpha") projNil).2 rfl⟩

/-- C2: for a matched project with a truthy repository URL and no
existing same-named application, a creation call is attempted; a failed
creation contributes exactly `⟨0, 0, 1⟩` with no scan call; a successful
creation contributes `created = 1` followed by a scan call whose outcome
contributes exactly one of `scanned` or `errors`, never both. -/
theorem C2_create_path (env : SyncEnv) (n : String) (p : Project)
    (url : String)
    (hm : p ∈ matchedProjects env.projects n)
    (hurl : env.repoUrl p.id = some url) (hne : url.isEmpty = false)
    (hnoapp : pyDictGet env.apps p.name = none) :
    SyncEv.createCall p.name url ∈ (processProject env env.apps p).2
    ∧ ((env.createApp p.name url = Except.error () ∨
          env.createApp p.name url = Except.ok none ∨
          env.createApp p.name url = Except.ok (some (""))) →
        (processProject env env.apps p).1 = ⟨0, 0, 1⟩
          ∧ ∀ a, SyncEv.scanCall a ∉ (processProject env env.apps p).2)
    ∧ (∀ newId, env.createApp p.name url = Except.ok (some newId) →
        newId.isEmpty = false →
        SyncEv.scanCall newId ∈ (processProject env env.apps p).2
        ∧ ((env.scanApp newId = Except.ok true ∧
              (processProject env env.apps p).1 = ⟨1, 1, 0⟩)
            ∨ (env.scanApp newId ≠ Except.ok true ∧
              (processProject env env.apps p).1 = ⟨1, 0, 1⟩))) := by
  have hred : processProject env env.apps p = createThenScan env p.name url :=
    processProject_eq_createThenScan env env.apps p url hurl hne hnoapp
  rw [hred]
  refine ⟨createThenScan_hasCreate env p.name url, ?_, ?_⟩
  · rintro (hc | hc | hc) <;>
      (unfold createThenScan
       simp [hc, emptyString_isEmpty])
  · intro newId hc hni
    unfold createThenScan scanStep
    simp only [hc, hni, Bool.false_eq_true, if_false]
    rcases hs : env.scanApp newId with e | b
    · cases e
      simp [hs]
    · cases b
      · simp [hs]
      · simp [hs]

/-- Witness for C2: in a concrete environment with an empty application
listing and a succeeding creation and scan, the creation call appears in
the trace and the project contributes `⟨1, 1, 0⟩`. -/
theorem C2_create_path_witness :
    SyncEv.createCall ("Repo1") ("https://host/r1")
        ∈ (processProject syncEnvCreate syncEnvCreate.apps projCreate).2
    ∧ (processProject syncEnvCreate syncEnvCreate.apps projCreate).1
        = ⟨1, 1, 0⟩ := by
  have h := C2_create_path syncEnvCreate ("甲部") projCreate ("https://host/r1")
      (by decide) rfl rfl rfl
  refine ⟨h.1, ?_⟩
  have h3 := h.2.2 ("app-9") rfl rfl
  exact (h3.2.resolve_right (fun hr => hr.1 rfl)).2

/-- C3: for a matched project whose name is mapped to a truthy
application id in the existing-application listing (built with exact,
case-sensitive name keys), no creation call is attempted; only a scan
call on that id is attempted, contributing exactly one of `scanned` or
`errors`. -/
theorem C3_existing_path (env : SyncEnv) (n : String) (p : Project)
    (url appId : String)
    (hm : p ∈ matchedProjects env.projects n)
    (hurl : env.repoUrl p.id = some url) (hne : url.isEmpty = false)
    (happ : pyDictGet env.apps p.name = some appId)
    (hid : appId.isEmpty = false) :
    (∀ nm u, SyncEv.createCall nm u ∉ (processProject env env.apps p).2)
    ∧ (processProject env env.apps p).2 = [SyncEv.scanCall appId]
    ∧ ((env.scanApp appId = Except.ok true ∧
          (processProject env env.apps p).1 = ⟨0, 1, 0⟩)
        ∨ (env.scanApp appId ≠ Except.ok true ∧
          (processProject env env.apps p).1 = ⟨0, 0, 1⟩)) := by
  have hred : processProject env env.apps p = scanStep env appId ⟨0, 0, 0⟩ [] :=
    processProject_eq_scanStep env env.apps p url appId hurl hne happ hid
  rw [hred]
  unfold scanStep
  rcases hs : env.scanApp appId with e | b
  · cases e
    simp [hs]
  · cases b
    · simp [hs]
    · simp [hs]

/-- Witness for C3: with a listing mapping the project's name to an id
and a succeeding scan, no creation call occurs and the contribution is
`⟨0, 1, 0⟩`. -/
theorem C3_existing_path_witness :
    (∀ nm u, SyncEv.createCall nm u
        ∉ (processProject syncEnvScan syncEnvScan.apps projScan).2)
    ∧ (processProject syncEnvScan syncEnvScan.apps projScan).1 = ⟨0, 1, 0⟩ := by
  have h := C3_existing_path syncEnvScan ("乙部") projScan ("https://host/r2")
      ("app-7") (by decide) rfl rfl (by decide) rfl
  exact ⟨h.1, (h.2.2.resolve_right (fun hr => hr.1 rfl)).2⟩

/-- C4: for an organization whose listing returns `N` applications of
which `K` deletion attempts fail (a `False` return or an exception),
`Cleanup.cleanup` returns exactly `⟨N - K, K⟩`, and every one of the `N`
applications contributes to a counter even when some deletions fail. -/
theorem C4_cleanup_counts (env : CleanupEnv) :
    Cleanup.cleanup env =
      ⟨env.apps.length - (env.apps.filter (deleteFails env)).length,
       (env.apps.filter (deleteFails env)).length⟩
    ∧ (Cleanup.cleanup env).deleted + (Cleanup.cleanup env).errors
        = env.apps.length := by
  have hlen := length_filter_not_add (deleteFails env) env.apps
  have hmain : Cleanup.cleanup env =
      (⟨env.apps.length - (env.apps.filter (deleteFails env)).length,
        (env.apps.filter (deleteFails env)).length⟩ : CleanupResult) := by
    unfold Cleanup.cleanup
    by_cases he : env.apps.isEmpty
    · rw [List.isEmpty_iff.mp he]
      simp
    · rw [if_neg he, cleanup_foldl_counts]
      have : (env.apps.filter (fun a => !deleteFails env a)).length
          = env.apps.length - (env.apps.filter (deleteFails env)).length := by
        omega
      simp [this]
  exact ⟨hmain, by rw [hmain]; simp; omega⟩

/-- C5: when every per-organization call returns without raising, the run
loops of both tools report exactly the field-wise sums of the
per-organization results, regardless of the error counts inside them. -/
theorem C5_aggregation (rs : List SyncResult) (cs : List CleanupResult) :
    runSyncLoop (rs.map Except.ok) = sumSync rs
    ∧ runCleanupLoop (cs.map Except.ok) = sumCleanup cs := by
  constructor
  · rw [runSyncLoop, runSyncLoop_ok_acc]
    simp [addSync]
  · rw [runCleanupLoop, runCleanupLoop_ok_acc]
    simp [addCleanup]

/-- C6: on an organization list that is empty or whose records all lack a
non-empty id or display name, `load_organizations` raises, the main
function returns with no result, and no per-organization sync — hence no
remote call — is ever invoked, whatever the remote behavior would have
been. -/
theorem C6_init_failure (orgs : List OrgRec)
    (h : ∀ o ∈ orgs, validOrg o = false) :
    (∃ msg, load_organizations orgs = Except.error msg)
    ∧ ∀ f, sync_repos_main orgs f = (none, []) := by
  have hfil : orgs.filter validOrg = [] :=
    List.filter_eq_nil_iff.mpr (by simpa using h)
  have hload : load_organizations orgs
      = Except.error ("No valid organizations found in configuration") := by
    unfold load_organizations
    simp [hfil]
  refine ⟨⟨_, hload⟩, fun f => ?_⟩
  unfold sync_repos_main
  rw [hload]

/-- Witness for C6 on a concrete all-invalid list (the single record has
an empty id). -/
theorem C6_init_failure_witness :
    (∃ msg, load_organizations [badOrg] = Except.error msg)
    ∧ sync_repos_main [badOrg]
        (fun _ => Except.ok (⟨0, 0, 0⟩ : SyncResult)) = (none, []) :=
  ⟨(C6_init_failure [badOrg] (by decide)).1,
   (C6_init_failure [badOrg] (by decide)).2 _⟩

/-- C7: `IQ.create_application` returns absent exactly when the creation
POST raises or the source-control POST raises after a successful
creation; it returns an id only when both calls succeed; and no delete
call (no compensation) is ever attempted. -/
theorem C7_create_atomic (env : CreateEnv) :
    ((IQ.create_application env).1 = none ↔
      (env.postApplication = Except.error () ∨
        ∃ id, env.postApplication = Except.ok id ∧
          env.postSourceControl id = Except.error ()))
    ∧ (∀ id, (IQ.create_application env).1 = some id →
        env.postApplication = Except.ok id ∧
          env.postSourceControl id = Except.ok ())
    ∧ (∀ a, IQEv.deleteCall a ∉ (IQ.create_application env).2) := by
  unfold IQ.create_application
  rcases hp : env.postApplication with e | appId
  · cases e
    simp [hp]
  · rcases hs : env.postSourceControl appId with e | u
    · cases e
      refine ⟨?_, ?_, ?_⟩ <;> simp [hp, hs]
    · cases u
      refine ⟨?_, ?_, ?_⟩ <;> simp [hp, hs]

/-- Witness for C7: in the environment where both POSTs succeed, the
returned id pins both outcomes. -/
theorem C7_create_atomic_witness :
    createEnvOk.postApplication = Except.ok ("app-1") ∧
      createEnvOk.postSourceControl ("app-1") = Except.ok () :=
  (C7_create_atomic createEnvOk).2.1 ("app-1") rfl

/-- Counterexample to C8 as stated: the empty list contains only records
with non-empty id and display name (vacuously), yet `load_organizations`
raises on it instead of returning a loaded list of the same size. -/
theorem C8_cex_empty_input :
    ¬ ∃ l, load_organizations ([] : List OrgRec) = Except.ok l := by
  rintro ⟨l, h⟩
  simp [load_organizations] at h

/-- C8 (amended): whenever `load_organizations` returns a list, that list
is exactly the input's records with both fields non-empty, in order; and
for a nonempty input containing only such records the returned list is
the input itself (same size and order).  (On an input with no valid
record — including the empty input — it raises instead, per C6.) -/
theorem C8_loaded_records :
    (∀ (orgs l : List OrgRec),
        load_organizations orgs = Except.ok l → l = orgs.filter validOrg)
    ∧ ∀ (orgs : List OrgRec), orgs ≠ [] →
        (∀ o ∈ orgs, validOrg o = true) →
        load_organizations orgs = Except.ok orgs := by
  constructor
  · intro orgs l h
    unfold load_organizations at h
    by_cases he : (orgs.filter validOrg).isEmpty
    · simp [he] at h
    · simp [he] at h
      exact h.symm
  · intro orgs hne hv
    have hself : orgs.filter validOrg = orgs := List.filter_eq_self.mpr hv
    unfold load_organizations
    simp [hself, hne, List.isEmpty_iff]

/-- Witness for the amended C8 on a concrete one-record valid list. -/
theorem C8_loaded_records_witness :
    load_organizations [goodOrg] = Except.ok [goodOrg] :=
  C8_loaded_records.2 [goodOrg] (by decide) (by decide)

/-- C9: on any run that returns, `Sync.sync` satisfies
`scanned + errors = number of matched projects` (each matched project
contributes exactly one of the two, through the missing-URL branch, the
create-failure branch, the scan outcome, or the per-project exception
handler) and `created ≤ number of matched projects`; the counters are
naturals, hence non-negative. -/
theorem C9_sync_invariant (env : SyncEnv) (n : String) :
    (Sync.sync env n).scanned + (Sync.sync env n).errors
      = (matchedProjects env.projects n).length
    ∧ (Sync.sync env n).created ≤ (matchedProjects env.projects n).length := by
  have h := foldl_addSync_bound
      (fun p => (processProject env env.apps p).1)
      (fun p => processProject_counts env env.apps p)
      (matchedProjects env.projects n) ⟨0, 0, 0⟩
  rw [sync_eq_foldl]
  simpa using h

/-- C10: existence is decided by the truthiness of the id mapped to the
project's name, not by mere key presence: in a concrete listing mapping
the matched project's name to the empty id, a creation call is attempted
even though a same-named application is listed; and with the empty
mapping (the shape returned when the listing fails), a creation call is
attempted for every project with a truthy repository URL. -/
theorem C10_truthiness :
    (pyDictGet syncEnvFalsy.apps projFalsy.name = some ("")
      ∧ SyncEv.createCall ("RepoX") ("https://host/rx")
          ∈ (processProject syncEnvFalsy syncEnvFalsy.apps projFalsy).2)
    ∧ ∀ (env : SyncEnv) (p : Project) (url : String),
        env.repoUrl p.id = some url → url.isEmpty = false →
        SyncEv.createCall p.name url ∈ (processProject env [] p).2 := by
  refine ⟨⟨rfl, by decide⟩, ?_⟩
  intro env p url hurl hne
  have hred : processProject env [] p = createThenScan env p.name url :=
    processProject_eq_createThenScan env [] p url hurl hne rfl
  rw [hred]
  exact createThenScan_hasCreate env p.name url

/-- Witness for C10's universal part on a concrete environment with an
empty application mapping. -/
theorem C10_truthiness_witness :
    SyncEv.createCall ("RepoY") ("https://host/ry")
      ∈ (processProject syncEnvEmptyApps [] projEmptyApps).2 :=
  C10_truthiness.2 syncEnvEmptyApps projEmptyApps ("https://host/ry") rfl rfl
